import Mathlib

/-!
Verification of the persistent contact manifold cache of the reactphysics3d
library (files `src/engine/PersistentContactCache.cpp` and
`src/constraint/Contact.h`).

The C++ code is shallowly embedded: IEEE-754 doubles are modelled as exact
rationals, the fixed array `Contact* contacts[4]` together with `nbContacts`
is modelled as a total function `Nat → Contact` plus a natural number, and
each mutating member function becomes a pure function returning the new cache
state together with the list of contacts released to the memory pool during
the call.
-/

namespace RP3D

/-- Modelled from the spec: `Vector3` is a triple of IEEE-754 doubles
(section 3); doubles are modelled as exact rationals.  The implementation file
of `Vector3` is not among the sampled sources. -/
structure Vector3 where
  x : ℚ
  y : ℚ
  z : ℚ
deriving DecidableEq

/-- Modelled from the spec: componentwise vector addition. -/
def Vector3.add (v w : Vector3) : Vector3 :=
  ⟨v.x + w.x, v.y + w.y, v.z + w.z⟩

/-- Modelled from the spec: componentwise vector subtraction. -/
def Vector3.sub (v w : Vector3) : Vector3 :=
  ⟨v.x - w.x, v.y - w.y, v.z - w.z⟩

/-- Modelled from the spec: multiplication of a vector by a scalar. -/
def Vector3.smul (v : Vector3) (s : ℚ) : Vector3 :=
  ⟨v.x * s, v.y * s, v.z * s⟩

/-- Modelled from the spec: the dot product of two vectors. -/
def Vector3.dot (v w : Vector3) : ℚ :=
  v.x * w.x + v.y * w.y + v.z * w.z

/-- Modelled from the spec: the cross product of two vectors. -/
def Vector3.cross (v w : Vector3) : Vector3 :=
  ⟨v.y * w.z - v.z * w.y, v.z * w.x - v.x * w.z, v.x * w.y - v.y * w.x⟩

/-- Modelled from the spec: `lengthSquare` is the squared euclidean norm. -/
def Vector3.lengthSquare (v : Vector3) : ℚ :=
  v.x * v.x + v.y * v.y + v.z * v.z

/-- Modelled from the spec: a 3x3 matrix given by its three rows; only the
action on vectors is needed here. -/
structure Matrix3x3 where
  row0 : Vector3
  row1 : Vector3
  row2 : Vector3
deriving DecidableEq

/-- Modelled from the spec: matrix-vector multiplication. -/
def Matrix3x3.mulVec (m : Matrix3x3) (v : Vector3) : Vector3 :=
  ⟨m.row0.dot v, m.row1.dot v, m.row2.dot v⟩

/-- Modelled from the spec: a rigid transform is a pair (rotation, translation)
(section 3); its implementation file is not among the sampled sources. -/
structure Transform where
  orientation : Matrix3x3
  position : Vector3
deriving DecidableEq

/-- Modelled from the spec: application of a transform to a local point yields
`R · p + t` (section 3); in the C++ code this is `operator*(Transform, Vector3)`. -/
def Transform.apply (t : Transform) (p : Vector3) : Vector3 :=
  (t.orientation.mulVec p).add t.position

/-- Constant `MAX_CONTACTS_IN_CACHE` from `PersistentContactCache.h`
(spec section 6: `MAX_CONTACTS_IN_CACHE = 4`). -/
def MAX_CONTACTS_IN_CACHE : Nat := 4

/-- Modelled from the spec: `PERSISTENT_CONTACT_DIST_THRESHOLD` is recommended
0.02 world units (section 6); `constants.h` is not among the sampled sources. -/
def PERSISTENT_CONTACT_DIST_THRESHOLD : ℚ := 2 / 100

/-- Modelled from the spec: the dedup tolerance for `isApproxEqual` is a small
absolute epsilon, recommended 1e-6 in squared world units (sections 4.3 and 6);
the implementation of `isApproxEqual` is not among the sampled sources. -/
def DEDUP_TOLERANCE : ℚ := 1 / 1000000

/-- Modelled from the spec: `isApproxEqual` on points compares them under an
absolute tolerance (sections 4.3 and 6, squared world units). -/
def isApproxEqual (v1 v2 : Vector3) : Bool :=
  decide ((v1.sub v2).lengthSquare ≤ DEDUP_TOLERANCE)

/-- The `Contact` entity of `Contact.h`, restricted to the fields the manifold
cache reads and writes: the (frozen) world-space normal, the penetration depth,
the two constant local anchors and the two derived world anchors. -/
structure Contact where
  normal : Vector3
  penetrationDepth : ℚ
  localPointOnBody1 : Vector3
  localPointOnBody2 : Vector3
  worldPointOnBody1 : Vector3
  worldPointOnBody2 : Vector3
deriving DecidableEq

/-- The friction-basis computation of `Contact::computeFrictionVectors` in
`Contact.h`: `vector1` stands for the result of `normal.getOneOrthogonalVector()`
(whose implementation is not among the sampled sources) and the second friction
vector is `normal.cross(vector1)`. -/
def computeFrictionVectors (normal vector1 : Vector3) : Vector3 × Vector3 :=
  (vector1, normal.cross vector1)

/-- The `PersistentContactCache` state: the fixed pointer array
`Contact* contacts[MAX_CONTACTS_IN_CACHE]` is modelled as a total function and
`nbContacts` bounds the live slots `[0, nbContacts)`.  Slots at index
`nbContacts` and above hold stale values, exactly as the C++ array does. -/
structure PersistentContactCache where
  contacts : Nat → Contact
  nbContacts : Nat

/-- Body of `PersistentContactCache::removeContact`: release the contact at
`index`, swap the last live contact into its slot when `index` is not last,
and decrement `nbContacts`.  The second component is the list of contacts
released to the memory pool. -/
def PersistentContactCache.removeContact (cache : PersistentContactCache)
    (index : Nat) : PersistentContactCache × List Contact :=
  let removed := cache.contacts index
  let newContacts :=
    if index < cache.nbContacts - 1 then
      Function.update cache.contacts index (cache.contacts (cache.nbContacts - 1))
    else
      cache.contacts
  (⟨newContacts, cache.nbContacts - 1⟩, [removed])

/-- Loop of `PersistentContactCache::getIndexOfDeepestPenetration`: the running
maximum is seeded with the new contact's depth and the index `-1`, and is
updated on strict `>` while scanning the cached contacts from index 0. -/
def getIndexOfDeepestPenetration (cache : PersistentContactCache)
    (newContact : Contact) : Int :=
  ((List.range cache.nbContacts).foldl
    (fun acc i =>
      if (cache.contacts i).penetrationDepth > acc.2 then
        (Int.ofNat i, (cache.contacts i).penetrationDepth)
      else acc)
    (-1, newContact.penetrationDepth)).1

/-- The four candidate area scores computed inside
`PersistentContactCache::getIndexToRemove` (before the protected index is
zeroed out): score `k` is the squared length of the cross product associated
with removing cached contact `k` and keeping the new point. -/
def contactArea (cache : PersistentContactCache) (newPoint : Vector3) : Nat → ℚ
  | 0 => ((newPoint.sub (cache.contacts 1).localPointOnBody1).cross
      ((cache.contacts 3).localPointOnBody1.sub (cache.contacts 2).localPointOnBody1)).lengthSquare
  | 1 => ((newPoint.sub (cache.contacts 0).localPointOnBody1).cross
      ((cache.contacts 3).localPointOnBody1.sub (cache.contacts 2).localPointOnBody1)).lengthSquare
  | 2 => ((newPoint.sub (cache.contacts 0).localPointOnBody1).cross
      ((cache.contacts 3).localPointOnBody1.sub (cache.contacts 1).localPointOnBody1)).lengthSquare
  | 3 => ((newPoint.sub (cache.contacts 0).localPointOnBody1).cross
      ((cache.contacts 2).localPointOnBody1.sub (cache.contacts 1).localPointOnBody1)).lengthSquare
  | _ => 0

/-- Cascade of `<` comparisons of `PersistentContactCache::getMaxArea`,
returning the index of the maximum of the four area scores. -/
def getMaxArea (area0 area1 area2 area3 : ℚ) : Nat :=
  if area0 < area1 then
    if area1 < area2 then
      if area2 < area3 then 3 else 2
    else
      if area1 < area3 then 3 else 1
  else
    if area0 < area2 then
      if area2 < area3 then 3 else 2
    else
      if area0 < area3 then 3 else 0

/-- Body of `PersistentContactCache::getIndexToRemove`: each area is computed
only when its index differs from `indexMaxPenetration` (otherwise it stays 0),
then the argmax cascade picks the index to evict. -/
def getIndexToRemove (cache : PersistentContactCache) (indexMaxPenetration : Int)
    (newPoint : Vector3) : Nat :=
  let area0 := if indexMaxPenetration ≠ 0 then contactArea cache newPoint 0 else 0
  let area1 := if indexMaxPenetration ≠ 1 then contactArea cache newPoint 1 else 0
  let area2 := if indexMaxPenetration ≠ 2 then contactArea cache newPoint 2 else 0
  let area3 := if indexMaxPenetration ≠ 3 then contactArea cache newPoint 3 else 0
  getMaxArea area0 area1 area2 area3

/-- Body of `PersistentContactCache::addContact`: first the dedup scan over the
live contacts (releasing the new contact on an approximate match of the local
anchors on body 1), then either an append when the cache is not full, or the
eviction of `getIndexToRemove`'s index followed by insertion of the new contact
into the freed slot. -/
def PersistentContactCache.addContact (cache : PersistentContactCache)
    (contact : Contact) : PersistentContactCache × List Contact :=
  if (List.range cache.nbContacts).any
      (fun i => isApproxEqual contact.localPointOnBody1 (cache.contacts i).localPointOnBody1) then
    (cache, [contact])
  else if cache.nbContacts = MAX_CONTACTS_IN_CACHE then
    let indexMaxPenetration := getIndexOfDeepestPenetration cache contact
    let indexToRemove := getIndexToRemove cache indexMaxPenetration contact.localPointOnBody1
    let r := cache.removeContact indexToRemove
    (⟨Function.update r.1.contacts indexToRemove contact, r.1.nbContacts + 1⟩, r.2)
  else
    (⟨Function.update cache.contacts cache.nbContacts contact, cache.nbContacts + 1⟩, [])

/-- First phase of `PersistentContactCache::update`: recompute, for every live
contact, the world anchors from the two transforms and the penetration depth as
`(worldPointOnBody1 - worldPointOnBody2) · normal`. -/
def refreshContact (transform1 transform2 : Transform) (c : Contact) : Contact :=
  let w1 := transform1.apply c.localPointOnBody1
  let w2 := transform2.apply c.localPointOnBody2
  { c with
    worldPointOnBody1 := w1
    worldPointOnBody2 := w2
    penetrationDepth := (w1.sub w2).dot c.normal }

/-- The refresh loop of `PersistentContactCache::update` applied to every live
slot; stale slots are untouched. -/
def refreshPhase (cache : PersistentContactCache)
    (transform1 transform2 : Transform) : PersistentContactCache :=
  ⟨fun i => if i < cache.nbContacts then
      refreshContact transform1 transform2 (cache.contacts i)
    else cache.contacts i,
   cache.nbContacts⟩

/-- Second phase of `PersistentContactCache::update`: the sweep loop
`for (i = nbContacts-1; i >= 0; i--)` that removes contacts with non-positive
penetration depth or with a squared tangential drift above the threshold.
`sweepFrom (i+1) cache` processes index `i` and recurses on the lower indices. -/
def sweepFrom : Nat → PersistentContactCache → PersistentContactCache × List Contact
  | 0, cache => (cache, [])
  | i + 1, cache =>
    let c := cache.contacts i
    if c.penetrationDepth ≤ 0 then
      let r := cache.removeContact i
      let rest := sweepFrom i r.1
      (rest.1, r.2 ++ rest.2)
    else
      let projOfPoint1 := c.worldPointOnBody1.sub (c.normal.smul c.penetrationDepth)
      let projDifference := c.worldPointOnBody2.sub projOfPoint1
      if projDifference.lengthSquare >
          PERSISTENT_CONTACT_DIST_THRESHOLD * PERSISTENT_CONTACT_DIST_THRESHOLD then
        let r := cache.removeContact i
        let rest := sweepFrom i r.1
        (rest.1, r.2 ++ rest.2)
      else
        sweepFrom i cache

/-- Body of `PersistentContactCache::update`: early return on an empty cache,
otherwise refresh all live contacts and sweep out the stale ones. -/
def PersistentContactCache.update (cache : PersistentContactCache)
    (transform1 transform2 : Transform) : PersistentContactCache × List Contact :=
  if cache.nbContacts = 0 then (cache, [])
  else
    let refreshed := refreshPhase cache transform1 transform2
    sweepFrom refreshed.nbContacts refreshed

/-- Body of `PersistentContactCache::clear`: release every live contact and set
`nbContacts` to 0; the array entries themselves are not erased. -/
def PersistentContactCache.clear (cache : PersistentContactCache) :
    PersistentContactCache × List Contact :=
  (⟨cache.contacts, 0⟩, (List.range cache.nbContacts).map cache.contacts)

/-- An operation on the cache, for reasoning about arbitrary call sequences. -/
inductive CacheOp where
  | addOp (c : Contact)
  | updateOp (t1 t2 : Transform)
  | clearOp

/-- State reached after one operation (the released contacts are dropped). -/
def applyOp (cache : PersistentContactCache) : CacheOp → PersistentContactCache
  | .addOp c => (cache.addContact c).1
  | .updateOp t1 t2 => (cache.update t1 t2).1
  | .clearOp => cache.clear.1

/-- The two predicates of the sweep's keep-branch in
`PersistentContactCache::update`: squared tangential drift within threshold. -/
def withinDriftThreshold (c : Contact) : Prop :=
  (c.worldPointOnBody2.sub
      (c.worldPointOnBody1.sub (c.normal.smul c.penetrationDepth))).lengthSquare ≤
    PERSISTENT_CONTACT_DIST_THRESHOLD * PERSISTENT_CONTACT_DIST_THRESHOLD

/-- A contact whose world anchors and depth agree with the refresh equations of
`PersistentContactCache::update` for the given transforms. -/
def isRefreshedBy (transform1 transform2 : Transform) (c : Contact) : Prop :=
  c.worldPointOnBody1 = transform1.apply c.localPointOnBody1 ∧
  c.worldPointOnBody2 = transform2.apply c.localPointOnBody2 ∧
  c.penetrationDepth = (c.worldPointOnBody1.sub c.worldPointOnBody2).dot c.normal

/-- Selector for the four area scores, used to state properties of the
`getMaxArea` cascade. -/
def areaSel (area0 area1 area2 area3 : ℚ) : Nat → ℚ
  | 0 => area0
  | 1 => area1
  | 2 => area2
  | 3 => area3
  | _ => 0

/-- Identity rigid transform, used for concrete evaluations. -/
def identityTransform : Transform :=
  ⟨⟨⟨1, 0, 0⟩, ⟨0, 1, 0⟩, ⟨0, 0, 1⟩⟩, ⟨0, 0, 0⟩⟩

/-- The z-axis unit normal used by the concrete example contacts. -/
def exNormal : Vector3 := ⟨0, 0, 1⟩

/-- A contact whose four anchor points all sit at `(t, 0, 0)` with depth `d`. -/
def lineContact (t d : ℚ) : Contact :=
  ⟨exNormal, d, ⟨t, 0, 0⟩, ⟨t, 0, 0⟩, ⟨t, 0, 0⟩, ⟨t, 0, 0⟩⟩

/-- A contact anchored at `(x, 0, z)` with depth `d`. -/
def cornerContact (x z d : ℚ) : Contact :=
  ⟨exNormal, d, ⟨x, 0, z⟩, ⟨x, 0, z⟩, ⟨x, 0, z⟩, ⟨x, 0, z⟩⟩

/-- Degenerate full cache: four collinear anchors at x = 0, 1, 2, 3 with
penetration depths 5, 1, 1, 1. -/
def degenerateCache : PersistentContactCache :=
  ⟨fun i =>
    if i = 0 then lineContact 0 5
    else if i = 1 then lineContact 1 1
    else if i = 2 then lineContact 2 1
    else lineContact 3 1, 4⟩

/-- New contact on the same line at x = 4 with depth 1. -/
def degenerateNew : Contact := lineContact 4 1

/-- Full cache with anchors at the corners `(±1, 0, ±1)`, all depth 1. -/
def squareCache : PersistentContactCache :=
  ⟨fun i =>
    if i = 0 then cornerContact 1 1 1
    else if i = 1 then cornerContact 1 (-1) 1
    else if i = 2 then cornerContact (-1) 1 1
    else cornerContact (-1) (-1) 1, 4⟩

/-- New central contact at the origin with depth 2. -/
def squareNew : Contact := cornerContact 0 0 2

/-- Same corner cache but with the slot-3 contact strictly deepest (depth 5),
so index 3 is protected against a new contact of depth 2. -/
def protectedCache : PersistentContactCache :=
  ⟨fun i =>
    if i = 0 then cornerContact 1 1 1
    else if i = 1 then cornerContact 1 (-1) 1
    else if i = 2 then cornerContact (-1) 1 1
    else cornerContact (-1) (-1) 5, 4⟩

/-- A freshly constructed manifold: no live contacts. -/
def emptyCache : PersistentContactCache := ⟨fun _ => lineContact 0 0, 0⟩

/-- A contact that survives `update` under the identity transforms: its
refreshed depth is 1 and its refreshed drift is 0. -/
def survContact : Contact :=
  ⟨exNormal, 0, ⟨0, 0, 1⟩, ⟨0, 0, 0⟩, ⟨9, 9, 9⟩, ⟨9, 9, 9⟩⟩

/-- Singleton cache holding `survContact`. -/
def survCache : PersistentContactCache := ⟨fun _ => survContact, 1⟩

/-- A contact that is removed by `update` under the identity transforms: its
refreshed depth is 0. -/
def staleContact : Contact :=
  ⟨exNormal, 1, ⟨0, 0, 0⟩, ⟨0, 0, 0⟩, ⟨9, 9, 9⟩, ⟨9, 9, 9⟩⟩

/-- Singleton cache holding `staleContact`. -/
def staleCache : PersistentContactCache := ⟨fun _ => staleContact, 1⟩

/-- Singleton cache for the dedup scenario. -/
def dedupCache : PersistentContactCache := ⟨fun _ => lineContact 0 3, 1⟩

/-- A new contact sharing `localPointOnBody1` with the cached one. -/
def dedupNew : Contact := lineContact 0 2

lemma lengthSquare_nonneg (v : Vector3) : 0 ≤ v.lengthSquare := by
  unfold Vector3.lengthSquare
  exact add_nonneg (add_nonneg (mul_self_nonneg _) (mul_self_nonneg _)) (mul_self_nonneg _)

lemma contactArea_nonneg (cache : PersistentContactCache) (newPoint : Vector3)
    (j : Nat) : 0 ≤ contactArea cache newPoint j := by
  unfold contactArea
  match j with
  | 0 => exact lengthSquare_nonneg _
  | 1 => exact lengthSquare_nonneg _
  | 2 => exact lengthSquare_nonneg _
  | 3 => exact lengthSquare_nonneg _
  | (n + 4) => exact le_refl 0

lemma getMaxArea_spec (area0 area1 area2 area3 : ℚ) :
    getMaxArea area0 area1 area2 area3 < 4 ∧
    (∀ j, j < 4 →
      areaSel area0 area1 area2 area3 j ≤
        areaSel area0 area1 area2 area3 (getMaxArea area0 area1 area2 area3)) ∧
    (∀ j, j < getMaxArea area0 area1 area2 area3 →
      areaSel area0 area1 area2 area3 j <
        areaSel area0 area1 area2 area3 (getMaxArea area0 area1 area2 area3)) := by
  unfold getMaxArea
  split_ifs with h1 h2 h3 h4 h5 h6 h7 <;>
    refine ⟨by norm_num, fun j hj => ?_, fun j hj => ?_⟩ <;>
    interval_cases j <;>
    simp only [areaSel] <;>
    linarith

lemma removeContact_fst_nbContacts (cache : PersistentContactCache) (i : Nat) :
    (cache.removeContact i).1.nbContacts = cache.nbContacts - 1 := rfl

lemma removeContact_snd (cache : PersistentContactCache) (i : Nat) :
    (cache.removeContact i).2 = [cache.contacts i] := rfl

lemma removeContact_contacts_ne (cache : PersistentContactCache) {i j : Nat}
    (h : j ≠ i) : (cache.removeContact i).1.contacts j = cache.contacts j := by
  unfold PersistentContactCache.removeContact
  dsimp only
  split_ifs with hlt
  · exact Function.update_noteq h _ _
  · rfl

lemma removeContact_contacts_swap (cache : PersistentContactCache) {i : Nat}
    (h : i < cache.nbContacts - 1) :
    (cache.removeContact i).1.contacts i = cache.contacts (cache.nbContacts - 1) := by
  unfold PersistentContactCache.removeContact
  dsimp only
  rw [if_pos h]
  exact Function.update_same _ _ _

lemma removeContact_contacts_cases (cache : PersistentContactCache) (i j : Nat) :
    (cache.removeContact i).1.contacts j = cache.contacts j ∨
    (cache.removeContact i).1.contacts j = cache.contacts (cache.nbContacts - 1) := by
  rcases eq_or_ne j i with rfl | h
  · by_cases hlt : j < cache.nbContacts - 1
    · exact Or.inr (removeContact_contacts_swap cache hlt)
    · left
      unfold PersistentContactCache.removeContact
      dsimp only
      rw [if_neg hlt]
  · exact Or.inl (removeContact_contacts_ne cache h)

lemma sweepFrom_nb_le (i : Nat) :
    ∀ s : PersistentContactCache, (sweepFrom i s).1.nbContacts ≤ s.nbContacts := by
  induction i with
  | zero => intro s; exact le_refl _
  | succ i ih =>
    intro s
    rw [sweepFrom]
    dsimp only
    split_ifs with h1 h2
    · exact le_trans (le_trans (ih _) (le_of_eq (removeContact_fst_nbContacts s i)))
        (Nat.sub_le _ _)
    · exact le_trans (le_trans (ih _) (le_of_eq (removeContact_fst_nbContacts s i)))
        (Nat.sub_le _ _)
    · exact ih s

lemma sweepFrom_pointwise (P : Contact → Prop) (i : Nat) :
    ∀ s : PersistentContactCache,
      i ≤ s.nbContacts →
      (∀ j, j < s.nbContacts → P (s.contacts j)) →
      (∀ j, j < (sweepFrom i s).1.nbContacts → P ((sweepFrom i s).1.contacts j)) ∧
      (∀ c, c ∈ (sweepFrom i s).2 → P c) := by
  induction i with
  | zero =>
    intro s _ hP
    exact ⟨hP, fun c hc => absurd hc (List.not_mem_nil c)⟩
  | succ i ih =>
    intro s hle hP
    have hi : i < s.nbContacts := hle
    have hrem :
        (∀ j, j < (sweepFrom i (s.removeContact i).1).1.nbContacts →
          P ((sweepFrom i (s.removeContact i).1).1.contacts j)) ∧
        (∀ c, c ∈ (s.removeContact i).2 ++ (sweepFrom i (s.removeContact i).1).2 → P c) := by
      have hP' : ∀ j, j < (s.removeContact i).1.nbContacts →
          P ((s.removeContact i).1.contacts j) := by
        intro j hj
        rw [removeContact_fst_nbContacts] at hj
        rcases removeContact_contacts_cases s i j with h | h
        · exact h ▸ hP j (lt_of_lt_of_le hj (Nat.sub_le _ _))
        · exact h ▸ hP (s.nbContacts - 1) (by omega)
      have hle' : i ≤ (s.removeContact i).1.nbContacts := by
        rw [removeContact_fst_nbContacts]
        omega
      obtain ⟨ha, hb⟩ := ih (s.removeContact i).1 hle' hP'
      refine ⟨ha, fun c hc => ?_⟩
      rw [removeContact_snd] at hc
      rcases List.mem_append.mp hc with hc | hc
      · rw [List.mem_singleton.mp hc]
        exact hP i hi
      · exact hb c hc
    rw [sweepFrom]
    dsimp only
    split_ifs with h1 h2
    · exact hrem
    · exact hrem
    · exact ih s (le_of_lt hi) hP

lemma sweepFrom_valid (i : Nat) :
    ∀ s : PersistentContactCache,
      i ≤ s.nbContacts →
      (∀ j, i ≤ j → j < s.nbContacts →
        0 < (s.contacts j).penetrationDepth ∧ withinDriftThreshold (s.contacts j)) →
      ∀ j, j < (sweepFrom i s).1.nbContacts →
        0 < ((sweepFrom i s).1.contacts j).penetrationDepth ∧
          withinDriftThreshold ((sweepFrom i s).1.contacts j) := by
  induction i with
  | zero =>
    intro s _ hOk j hj
    exact hOk j (Nat.zero_le j) hj
  | succ i ih =>
    intro s hle hOk
    have hi : i < s.nbContacts := hle
    have hrem :
        (∀ j, i ≤ j → j < (s.removeContact i).1.nbContacts →
          0 < ((s.removeContact i).1.contacts j).penetrationDepth ∧
            withinDriftThreshold ((s.removeContact i).1.contacts j)) := by
      intro j hij hj
      rw [removeContact_fst_nbContacts] at hj
      rcases eq_or_ne j i with rfl | hne
      · rw [removeContact_contacts_swap s hj]
        exact hOk (s.nbContacts - 1) (by omega) (by omega)
      · rw [removeContact_contacts_ne s hne]
        exact hOk j (by omega) (by omega)
    have hle' : i ≤ (s.removeContact i).1.nbContacts := by
      rw [removeContact_fst_nbContacts]
      omega
    rw [sweepFrom]
    dsimp only
    split_ifs with h1 h2
    · exact ih (s.removeContact i).1 hle' hrem
    · exact ih (s.removeContact i).1 hle' hrem
    · refine ih s (le_of_lt hi) ?_
      intro j hij hj
      rcases eq_or_ne j i with rfl | hne
      · refine ⟨lt_of_not_le h1, ?_⟩
        unfold withinDriftThreshold
        exact le_of_not_lt h2
      · exact hOk j (by omega) hj

lemma refreshPhase_nbContacts (cache : PersistentContactCache)
    (t1 t2 : Transform) : (refreshPhase cache t1 t2).nbContacts = cache.nbContacts := rfl

lemma refreshPhase_contacts_lt (cache : PersistentContactCache)
    (t1 t2 : Transform) {j : Nat} (hj : j < cache.nbContacts) :
    (refreshPhase cache t1 t2).contacts j = refreshContact t1 t2 (cache.contacts j) := by
  unfold refreshPhase
  dsimp only
  rw [if_pos hj]

lemma refreshContact_isRefreshedBy (t1 t2 : Transform) (c : Contact) :
    isRefreshedBy t1 t2 (refreshContact t1 t2 c) :=
  ⟨rfl, rfl, rfl⟩

/-- C3: after `update(T1, T2)` returns, every contact still live in slots
`[0, nbContacts)` has non-negative penetration depth and squared tangential
drift at most the square of `PERSISTENT_CONTACT_DIST_THRESHOLD`, despite the
swap-remove sweep running from the last index down to the first. -/
theorem update_survivors_valid (cache : PersistentContactCache)
    (t1 t2 : Transform) :
    ∀ j, j < ((cache.update t1 t2).1).nbContacts →
      0 ≤ (((cache.update t1 t2).1).contacts j).penetrationDepth ∧
      withinDriftThreshold (((cache.update t1 t2).1).contacts j) := by
  intro j hj
  unfold PersistentContactCache.update at hj ⊢
  split_ifs at hj ⊢ with h0
  · dsimp only at hj
    exact absurd hj (by omega)
  · have h := sweepFrom_valid (refreshPhase cache t1 t2).nbContacts
      (refreshPhase cache t1 t2) (le_refl _)
      (fun j h1 h2 => absurd (lt_of_le_of_lt h1 h2) (lt_irrefl _)) j hj
    exact ⟨le_of_lt h.1, h.2⟩

/-- C6: after `update(T1, T2)` returns, every surviving live contact has
`worldPointOnBody1 = T1 · localPointOnBody1`,
`worldPointOnBody2 = T2 · localPointOnBody2` and
`penetrationDepth = (worldPointOnBody1 - worldPointOnBody2) · normal`. -/
theorem update_refreshes_world_points (cache : PersistentContactCache)
    (t1 t2 : Transform) :
    ∀ j, j < ((cache.update t1 t2).1).nbContacts →
      isRefreshedBy t1 t2 (((cache.update t1 t2).1).contacts j) := by
  intro j hj
  unfold PersistentContactCache.update at hj ⊢
  split_ifs at hj ⊢ with h0
  · dsimp only at hj
    exact absurd hj (by omega)
  · refine (sweepFrom_pointwise (isRefreshedBy t1 t2) _
      (refreshPhase cache t1 t2) (le_refl _) ?_).1 j hj
    intro j hjlt
    rw [refreshPhase_nbContacts] at hjlt
    rw [refreshPhase_contacts_lt cache t1 t2 hjlt]
    exact refreshContact_isRefreshedBy t1 t2 (cache.contacts j)

/-- C10: `update` on an empty manifold returns immediately leaving the state
unchanged and releasing nothing; `update` never increases `nbContacts`; and
every contact released by `update` is the refreshed version of a contact that
was live at entry. -/
theorem update_frame_conditions (cache : PersistentContactCache)
    (t1 t2 : Transform) :
    (cache.nbContacts = 0 → cache.update t1 t2 = (cache, [])) ∧
    (cache.update t1 t2).1.nbContacts ≤ cache.nbContacts ∧
    (∀ c, c ∈ (cache.update t1 t2).2 →
      ∃ j, j < cache.nbContacts ∧ c = refreshContact t1 t2 (cache.contacts j)) := by
  refine ⟨fun h => by simp [PersistentContactCache.update, h], ?_, ?_⟩
  · unfold PersistentContactCache.update
    split_ifs with h0
    · exact le_refl _
    · exact sweepFrom_nb_le _ _
  · unfold PersistentContactCache.update
    split_ifs with h0
    · intro c hc
      exact absurd hc (List.not_mem_nil c)
    · intro c hc
      refine (sweepFrom_pointwise
        (fun c => ∃ j, j < cache.nbContacts ∧ c = refreshContact t1 t2 (cache.contacts j))
        _ (refreshPhase cache t1 t2) (le_refl _) ?_).2 c hc
      intro j hjlt
      rw [refreshPhase_nbContacts] at hjlt
      rw [refreshPhase_contacts_lt cache t1 t2 hjlt]
      exact ⟨j, hjlt, rfl⟩

/-- C4: when the new contact's `localPointOnBody1` approximately equals that of
some live contact, `addContact` releases the new contact exactly once and
leaves the whole manifold state unchanged. -/
theorem addContact_dedup_releases_new (cache : PersistentContactCache)
    (contact : Contact)
    (h : ∃ i, i < cache.nbContacts ∧
      isApproxEqual contact.localPointOnBody1 (cache.contacts i).localPointOnBody1 = true) :
    cache.addContact contact = (cache, [contact]) := by
  obtain ⟨i, hi, happrox⟩ := h
  have hany : (List.range cache.nbContacts).any
      (fun i => isApproxEqual contact.localPointOnBody1 (cache.contacts i).localPointOnBody1) = true :=
    List.any_eq_true.mpr ⟨i, List.mem_range.mpr hi, happrox⟩
  unfold PersistentContactCache.addContact
  rw [hany]
  rfl

lemma addContact_full_eq (cache : PersistentContactCache) (contact : Contact)
    (h4 : cache.nbContacts = 4)
    (hnew : ∀ i, i < cache.nbContacts →
      isApproxEqual contact.localPointOnBody1 (cache.contacts i).localPointOnBody1 = false) :
    cache.addContact contact =
      (⟨Function.update
          (cache.removeContact (getIndexToRemove cache
            (getIndexOfDeepestPenetration cache contact) contact.localPointOnBody1)).1.contacts
          (getIndexToRemove cache
            (getIndexOfDeepestPenetration cache contact) contact.localPointOnBody1)
          contact,
        4⟩,
       [cache.contacts (getIndexToRemove cache
          (getIndexOfDeepestPenetration cache contact) contact.localPointOnBody1)]) := by
  have hany : (List.range cache.nbContacts).any
      (fun i => isApproxEqual contact.localPointOnBody1 (cache.contacts i).localPointOnBody1) = false := by
    rw [List.any_eq_false]
    intro i hi
    simp only [Bool.not_eq_true]
    exact hnew i (List.mem_range.mp hi)
  unfold PersistentContactCache.addContact
  rw [hany]
  simp only [Bool.false_eq_true, if_false]
  rw [if_pos (show cache.nbContacts = MAX_CONTACTS_IN_CACHE from h4)]
  rw [removeContact_fst_nbContacts, removeContact_snd, h4]

lemma getIndexToRemove_spec (cache : PersistentContactCache) (idx : Int)
    (p : Vector3) :
    getIndexToRemove cache idx p < 4 ∧
    (∀ m : Nat, idx = Int.ofNat m → getIndexToRemove cache idx p = m →
      m = 0 ∧ ∀ j, j < 4 → j ≠ 0 → contactArea cache p j = 0) := by
  unfold getIndexToRemove
  dsimp only
  set a0 := (if idx ≠ 0 then contactArea cache p 0 else 0) with h0def
  set a1 := (if idx ≠ 1 then contactArea cache p 1 else 0) with h1def
  set a2 := (if idx ≠ 2 then contactArea cache p 2 else 0) with h2def
  set a3 := (if idx ≠ 3 then contactArea cache p 3 else 0) with h3def
  have spec := getMaxArea_spec a0 a1 a2 a3
  refine ⟨spec.1, ?_⟩
  intro m hm hk
  subst hm
  rw [hk] at spec
  have ha0 : 0 ≤ a0 := by
    rw [h0def]
    split_ifs
    · exact contactArea_nonneg cache p 0
    · exact le_refl 0
  have ha1 : 0 ≤ a1 := by
    rw [h1def]
    split_ifs
    · exact contactArea_nonneg cache p 1
    · exact le_refl 0
  have ha2 : 0 ≤ a2 := by
    rw [h2def]
    split_ifs
    · exact contactArea_nonneg cache p 2
    · exact le_refl 0
  have hm4 : m < 4 := spec.1
  have hm0 : m = 0 := by
    by_contra hne
    have h1m : 0 < m := Nat.pos_of_ne_zero hne
    have hfirst0 := spec.2.2 0 h1m
    interval_cases m
    · simp only [areaSel] at hfirst0
      rw [h1def] at hfirst0
      norm_num at hfirst0
      linarith
    · simp only [areaSel] at hfirst0
      rw [h2def] at hfirst0
      norm_num at hfirst0
      linarith
    · simp only [areaSel] at hfirst0
      rw [h3def] at hfirst0
      norm_num at hfirst0
      linarith
  subst hm0
  refine ⟨rfl, ?_⟩
  have hz : a0 = 0 := by
    rw [h0def]
    norm_num
  intro j hj4 hjne
  interval_cases j
  · exact absurd rfl hjne
  · have hle := spec.2.1 1 (by norm_num)
    simp only [areaSel] at hle
    rw [h1def, hz] at hle
    norm_num at hle
    exact le_antisymm hle (contactArea_nonneg cache p 1)
  · have hle := spec.2.1 2 (by norm_num)
    simp only [areaSel] at hle
    rw [h2def, hz] at hle
    norm_num at hle
    exact le_antisymm hle (contactArea_nonneg cache p 2)
  · have hle := spec.2.1 3 (by norm_num)
    simp only [areaSel] at hle
    rw [h3def, hz] at hle
    norm_num at hle
    exact le_antisymm hle (contactArea_nonneg cache p 3)

/-- C1 (amended): adding to a full manifold a contact whose local anchor on
body 1 approximately equals no live contact's always evicts exactly one of the
four existing contacts (released through the allocator), keeps the new contact,
and leaves `nbContacts` at 4; the evicted index can coincide with the protected
index of `getIndexOfDeepestPenetration` only in the degenerate case where that
protected index is 0 and every other area score is exactly zero. -/
theorem addContact_full_eviction (cache : PersistentContactCache)
    (contact : Contact) (h4 : cache.nbContacts = 4)
    (hnew : ∀ i, i < cache.nbContacts →
      isApproxEqual contact.localPointOnBody1 (cache.contacts i).localPointOnBody1 = false) :
    (cache.addContact contact).2 =
      [cache.contacts (getIndexToRemove cache (getIndexOfDeepestPenetration cache contact)
        contact.localPointOnBody1)] ∧
    getIndexToRemove cache (getIndexOfDeepestPenetration cache contact)
      contact.localPointOnBody1 < 4 ∧
    (cache.addContact contact).1.nbContacts = 4 ∧
    (cache.addContact contact).1.contacts
      (getIndexToRemove cache (getIndexOfDeepestPenetration cache contact)
        contact.localPointOnBody1) = contact ∧
    (∀ m : Nat, getIndexOfDeepestPenetration cache contact = Int.ofNat m →
      getIndexToRemove cache (getIndexOfDeepestPenetration cache contact)
        contact.localPointOnBody1 = m →
      m = 0 ∧ ∀ j, j < 4 → j ≠ 0 →
        contactArea cache contact.localPointOnBody1 j = 0) := by
  rw [addContact_full_eq cache contact h4 hnew]
  exact ⟨rfl, (getIndexToRemove_spec cache _ _).1, rfl,
    Function.update_same _ _ _, (getIndexToRemove_spec cache _ _).2⟩

/-- C9: after a full-cache `addContact` evicts index `k` and inserts a
non-duplicate contact, the new contact occupies slot `k`, `nbContacts` is 4
again, and every other slot (slot 3 included, even when it was temporarily
swapped into slot `k` by `removeContact`) still holds the contact it held
before the call. -/
theorem addContact_full_slot_placement (cache : PersistentContactCache)
    (contact : Contact) (h4 : cache.nbContacts = 4)
    (hnew : ∀ i, i < cache.nbContacts →
      isApproxEqual contact.localPointOnBody1 (cache.contacts i).localPointOnBody1 = false) :
    (cache.addContact contact).1.contacts
      (getIndexToRemove cache (getIndexOfDeepestPenetration cache contact)
        contact.localPointOnBody1) = contact ∧
    (cache.addContact contact).1.nbContacts = 4 ∧
    (∀ j, j < 4 →
      j ≠ getIndexToRemove cache (getIndexOfDeepestPenetration cache contact)
        contact.localPointOnBody1 →
      (cache.addContact contact).1.contacts j = cache.contacts j) := by
  rw [addContact_full_eq cache contact h4 hnew]
  refine ⟨Function.update_same _ _ _, rfl, ?_⟩
  intro j hj4 hjne
  exact (Function.update_noteq hjne _ _).trans (removeContact_contacts_ne cache hjne)

/-- C5: on a full manifold, `getIndexOfDeepestPenetration` returns -1 exactly
when no cached contact is strictly deeper than the new contact, and otherwise
returns the smallest index among the cached contacts achieving the maximal
penetration depth (the running maximum being seeded with the new contact's
depth and updated only on strict inequality). -/
theorem getIndexOfDeepestPenetration_spec (cache : PersistentContactCache)
    (newContact : Contact) (h4 : cache.nbContacts = 4) :
    ((∀ i, i < cache.nbContacts →
        (cache.contacts i).penetrationDepth ≤ newContact.penetrationDepth) →
      getIndexOfDeepestPenetration cache newContact = -1) ∧
    (∀ k, k < cache.nbContacts →
      newContact.penetrationDepth < (cache.contacts k).penetrationDepth →
      (∀ i, i < cache.nbContacts →
        (cache.contacts i).penetrationDepth ≤ (cache.contacts k).penetrationDepth) →
      (∀ i, i < k →
        (cache.contacts i).penetrationDepth < (cache.contacts k).penetrationDepth) →
      getIndexOfDeepestPenetration cache newContact = Int.ofNat k) := by
  unfold getIndexOfDeepestPenetration
  rw [h4]
  rw [(by decide : List.range 4 = [0, 1, 2, 3])]
  simp only [List.foldl]
  split_ifs <;>
    refine ⟨fun hall => ?_, fun k hk hgt hmax hfirst => ?_⟩
  all_goals try dsimp only at *
  all_goals try interval_cases k
  all_goals
    first
    | rfl
    | (exfalso
       (try (have e0 := hall 0 (by omega); have e1 := hall 1 (by omega);
             have e2 := hall 2 (by omega); have e3 := hall 3 (by omega)))
       (try (have m0 := hmax 0 (by omega); have m1 := hmax 1 (by omega);
             have m2 := hmax 2 (by omega); have m3 := hmax 3 (by omega)))
       (try have f0 := hfirst 0 (by omega))
       (try have f1 := hfirst 1 (by omega))
       (try have f2 := hfirst 2 (by omega))
       linarith)

/-- C2 (amended): `getMaxArea` returns an index achieving the maximum of the
four area scores; when two or more scores are tied for the maximum, it returns
the lowest of the tied indices (every strictly smaller index holds a strictly
smaller score), not the highest. -/
theorem getMaxArea_argmax_lowest_tie (area0 area1 area2 area3 : ℚ) :
    getMaxArea area0 area1 area2 area3 < 4 ∧
    (∀ j, j < 4 → areaSel area0 area1 area2 area3 j ≤
      areaSel area0 area1 area2 area3 (getMaxArea area0 area1 area2 area3)) ∧
    (∀ j, j < getMaxArea area0 area1 area2 area3 →
      areaSel area0 area1 area2 area3 j <
        areaSel area0 area1 area2 area3 (getMaxArea area0 area1 area2 area3)) :=
  getMaxArea_spec area0 area1 area2 area3

lemma addContact_nb_le (cache : PersistentContactCache) (c : Contact)
    (h : cache.nbContacts ≤ 4) : (cache.addContact c).1.nbContacts ≤ 4 := by
  unfold PersistentContactCache.addContact
  split_ifs with hdup hfull
  · exact h
  · dsimp only
    rw [removeContact_fst_nbContacts, hfull]
    norm_num [MAX_CONTACTS_IN_CACHE]
  · dsimp only
    unfold MAX_CONTACTS_IN_CACHE at hfull
    omega

lemma update_nb_le (cache : PersistentContactCache) (t1 t2 : Transform) :
    (cache.update t1 t2).1.nbContacts ≤ cache.nbContacts := by
  unfold PersistentContactCache.update
  split_ifs with h0
  · exact le_refl _
  · exact sweepFrom_nb_le _ _

/-- C7: starting from a freshly constructed manifold (`nbContacts = 0`), after
any finite sequence of `addContact`, `update` and `clear` operations,
`nbContacts` stays between 0 and 4. -/
theorem nbContacts_bounded_over_ops (start : PersistentContactCache)
    (ops : List CacheOp) (h0 : start.nbContacts = 0) :
    0 ≤ (List.foldl applyOp start ops).nbContacts ∧
    (List.foldl applyOp start ops).nbContacts ≤ 4 := by
  refine ⟨Nat.zero_le _, ?_⟩
  have haux : ∀ (l : List CacheOp) (s : PersistentContactCache),
      s.nbContacts ≤ 4 → (List.foldl applyOp s l).nbContacts ≤ 4 := by
    intro l
    induction l with
    | nil => intro s hs; exact hs
    | cons op l ih =>
      intro s hs
      rw [List.foldl_cons]
      refine ih _ ?_
      cases op with
      | addOp c => exact addContact_nb_le s c hs
      | updateOp t1 t2 => exact le_trans (update_nb_le s t1 t2) hs
      | clearOp => exact Nat.zero_le 4
  exact haux ops start (by omega)

/-- C8: with `vector1` standing for the result of
`normal.getOneOrthogonalVector()` assumed of unit length and perpendicular to
the unit `normal`, the friction basis `(vector1, normal x vector1)` of
`Contact::computeFrictionVectors` satisfies
`frictionVectors[0] x frictionVectors[1] = normal` exactly. -/
theorem frictionVectors_cross_eq_normal (normal vector1 : Vector3)
    (hn : normal.dot normal = 1)
    (h1 : vector1.dot vector1 = 1)
    (h2 : vector1.dot normal = 0) :
    ((computeFrictionVectors normal vector1).1).cross
      ((computeFrictionVectors normal vector1).2) = normal := by
  obtain ⟨nx, ny, nz⟩ := normal
  obtain ⟨tx, ty, tz⟩ := vector1
  simp only [computeFrictionVectors, Vector3.cross, Vector3.dot] at h1 h2 ⊢
  rw [Vector3.mk.injEq]
  refine ⟨?_, ?_, ?_⟩
  · linear_combination nx * h1 - tx * h2
  · linear_combination ny * h1 - ty * h2
  · linear_combination nz * h1 - tz * h2

/-- Claim C1 counterexample: on the degenerate collinear full manifold the new
contact is approximately equal to no live contact and contact 0 is strictly
deeper than the new one, so index 0 is the protected index returned by
`getIndexOfDeepestPenetration`; yet `addContact` evicts and releases exactly
the contact at index 0. -/
theorem addContact_evicts_protected_counterexample :
    degenerateCache.nbContacts = 4 ∧
    isApproxEqual degenerateNew.localPointOnBody1
      (degenerateCache.contacts 0).localPointOnBody1 = false ∧
    isApproxEqual degenerateNew.localPointOnBody1
      (degenerateCache.contacts 1).localPointOnBody1 = false ∧
    isApproxEqual degenerateNew.localPointOnBody1
      (degenerateCache.contacts 2).localPointOnBody1 = false ∧
    isApproxEqual degenerateNew.localPointOnBody1
      (degenerateCache.contacts 3).localPointOnBody1 = false ∧
    getIndexOfDeepestPenetration degenerateCache degenerateNew = Int.ofNat 0 ∧
    (degenerateCache.addContact degenerateNew).2 = [degenerateCache.contacts 0] := by
  refine ⟨rfl, ?_, ?_, ?_, ?_, ?_, ?_⟩ <;>
    norm_num [PersistentContactCache.addContact, PersistentContactCache.removeContact,
      getIndexOfDeepestPenetration, getIndexToRemove, getMaxArea, contactArea,
      isApproxEqual, Vector3.sub, Vector3.cross, Vector3.lengthSquare, Vector3.dot,
      DEDUP_TOLERANCE, MAX_CONTACTS_IN_CACHE, List.range_succ,
      degenerateCache, degenerateNew, lineContact, exNormal]

/-- Claim C2 counterexample: with all four area scores tied at 0, the highest
tied index is 3, but `getMaxArea` returns 0. -/
theorem getMaxArea_tie_counterexample :
    getMaxArea (0 : ℚ) 0 0 0 = 0 ∧ getMaxArea (0 : ℚ) 0 0 0 ≠ 3 := by
  norm_num [getMaxArea]

/-- Witness for C1 at a concrete full manifold of four corner contacts and a
central new contact. -/
theorem addContact_full_eviction_witness :
    (squareCache.addContact squareNew).2 =
      [squareCache.contacts (getIndexToRemove squareCache
        (getIndexOfDeepestPenetration squareCache squareNew)
        squareNew.localPointOnBody1)] ∧
    getIndexToRemove squareCache (getIndexOfDeepestPenetration squareCache squareNew)
      squareNew.localPointOnBody1 < 4 ∧
    (squareCache.addContact squareNew).1.nbContacts = 4 := by
  obtain ⟨h1, h2, h3, h4c, h5⟩ := addContact_full_eviction squareCache squareNew rfl (by
    intro i hi
    have hi4 : i < 4 := hi
    interval_cases i <;>
      norm_num [isApproxEqual, Vector3.sub, Vector3.lengthSquare, DEDUP_TOLERANCE,
        squareCache, squareNew, cornerContact, exNormal])
  exact ⟨h1, h2, h3⟩

/-- Witness for C3 on a singleton cache whose contact survives the sweep. -/
theorem update_survivors_valid_witness :
    0 ≤ (((survCache.update identityTransform identityTransform).1).contacts 0).penetrationDepth ∧
    withinDriftThreshold
      (((survCache.update identityTransform identityTransform).1).contacts 0) :=
  update_survivors_valid survCache identityTransform identityTransform 0 (by
    norm_num [PersistentContactCache.update, refreshPhase, refreshContact, sweepFrom,
      PersistentContactCache.removeContact, Transform.apply, Matrix3x3.mulVec,
      Vector3.add, Vector3.sub, Vector3.smul, Vector3.dot, Vector3.cross,
      Vector3.lengthSquare, PERSISTENT_CONTACT_DIST_THRESHOLD,
      identityTransform, survCache, survContact, exNormal])

/-- Witness for C4: adding a contact with a duplicated local anchor releases it
and leaves the singleton cache unchanged. -/
theorem addContact_dedup_releases_new_witness :
    dedupCache.addContact dedupNew = (dedupCache, [dedupNew]) :=
  addContact_dedup_releases_new dedupCache dedupNew
    ⟨0, by norm_num [dedupCache],
      by norm_num [isApproxEqual, Vector3.sub, Vector3.lengthSquare, DEDUP_TOLERANCE,
        dedupCache, dedupNew, lineContact, exNormal]⟩

/-- Witness for C5: on the degenerate cache, slot 0 carries the strictly
deepest contact so `getIndexOfDeepestPenetration` returns 0. -/
theorem getIndexOfDeepestPenetration_spec_witness :
    getIndexOfDeepestPenetration degenerateCache degenerateNew = Int.ofNat 0 :=
  (getIndexOfDeepestPenetration_spec degenerateCache degenerateNew rfl).2 0
    (by decide) (by decide) (by decide) (by decide)

/-- Witness for C6 on the surviving singleton cache. -/
theorem update_refreshes_world_points_witness :
    isRefreshedBy identityTransform identityTransform
      (((survCache.update identityTransform identityTransform).1).contacts 0) :=
  update_refreshes_world_points survCache identityTransform identityTransform 0 (by
    norm_num [PersistentContactCache.update, refreshPhase, refreshContact, sweepFrom,
      PersistentContactCache.removeContact, Transform.apply, Matrix3x3.mulVec,
      Vector3.add, Vector3.sub, Vector3.smul, Vector3.dot, Vector3.cross,
      Vector3.lengthSquare, PERSISTENT_CONTACT_DIST_THRESHOLD,
      identityTransform, survCache, survContact, exNormal])

/-- Witness for C7 on a concrete three-operation sequence from a fresh cache. -/
theorem nbContacts_bounded_over_ops_witness :
    0 ≤ (List.foldl applyOp emptyCache
      [CacheOp.addOp squareNew,
       CacheOp.updateOp identityTransform identityTransform,
       CacheOp.clearOp]).nbContacts ∧
    (List.foldl applyOp emptyCache
      [CacheOp.addOp squareNew,
       CacheOp.updateOp identityTransform identityTransform,
       CacheOp.clearOp]).nbContacts ≤ 4 :=
  nbContacts_bounded_over_ops emptyCache
    [CacheOp.addOp squareNew,
     CacheOp.updateOp identityTransform identityTransform,
     CacheOp.clearOp] rfl

/-- Witness for C8 with the z-axis normal and the x-axis orthogonal vector. -/
theorem frictionVectors_cross_eq_normal_witness :
    ((computeFrictionVectors ⟨0, 0, 1⟩ ⟨1, 0, 0⟩).1).cross
      ((computeFrictionVectors ⟨0, 0, 1⟩ ⟨1, 0, 0⟩).2) = (⟨0, 0, 1⟩ : Vector3) :=
  frictionVectors_cross_eq_normal ⟨0, 0, 1⟩ ⟨1, 0, 0⟩
    (by norm_num [Vector3.dot]) (by norm_num [Vector3.dot]) (by norm_num [Vector3.dot])

/-- Witness for C9: on `protectedCache` the evicted slot is 0 (index 3 is
protected), the new contact lands in slot 0, and slot 3 keeps its contact even
though `removeContact` temporarily swapped it into slot 0. -/
theorem addContact_full_slot_placement_witness :
    getIndexToRemove protectedCache (getIndexOfDeepestPenetration protectedCache squareNew)
      squareNew.localPointOnBody1 = 0 ∧
    (protectedCache.addContact squareNew).1.contacts 0 = squareNew ∧
    (protectedCache.addContact squareNew).1.contacts 3 = protectedCache.contacts 3 := by
  have hk : getIndexToRemove protectedCache
      (getIndexOfDeepestPenetration protectedCache squareNew)
      squareNew.localPointOnBody1 = 0 := by
    norm_num [getIndexToRemove, getIndexOfDeepestPenetration, getMaxArea, contactArea,
      List.range_succ, protectedCache, squareNew, cornerContact, exNormal,
      Vector3.sub, Vector3.cross, Vector3.lengthSquare]
  have h := addContact_full_slot_placement protectedCache squareNew rfl (by
    intro i hi
    have hi4 : i < 4 := hi
    interval_cases i <;>
      norm_num [isApproxEqual, Vector3.sub, Vector3.lengthSquare, DEDUP_TOLERANCE,
        protectedCache, squareNew, cornerContact, exNormal])
  rw [hk] at h
  exact ⟨hk, h.1, h.2.2 3 (by norm_num) (by norm_num)⟩

/-- Witness for C10: the empty cache is untouched by `update`, and the released
contact of the stale singleton cache is the refreshed entry contact. -/
theorem update_frame_conditions_witness :
    emptyCache.update identityTransform identityTransform = (emptyCache, []) ∧
    (staleCache.update identityTransform identityTransform).1.nbContacts ≤
      staleCache.nbContacts ∧
    (∃ j, j < staleCache.nbContacts ∧
      refreshContact identityTransform identityTransform staleContact =
        refreshContact identityTransform identityTransform (staleCache.contacts j)) :=
  ⟨(update_frame_conditions emptyCache identityTransform identityTransform).1 rfl,
   (update_frame_conditions staleCache identityTransform identityTransform).2.1,
   (update_frame_conditions staleCache identityTransform identityTransform).2.2
     (refreshContact identityTransform identityTransform staleContact)
     (by
       norm_num [PersistentContactCache.update, refreshPhase, refreshContact, sweepFrom,
         PersistentContactCache.removeContact, Transform.apply, Matrix3x3.mulVec,
         Vector3.add, Vector3.sub, Vector3.smul, Vector3.dot, Vector3.cross,
         Vector3.lengthSquare, PERSISTENT_CONTACT_DIST_THRESHOLD,
         identityTransform, staleCache, staleContact, exNormal])⟩

end RP3D
